import Mathlib

/-!
# Verification of the goqtt MQTT 3.1.1 broker

Shallow embedding of the broker's topic-matching engine, subscription trie,
QoS 2 flow engine, Remaining Length codec, CONNECT parser and parts of the
connection loop, translated from the Go sources, together with proofs and
refutations of the frozen specification claims.

Representation choices (documented once here):
* Go strings that are interpreted rune-by-rune (topic names and filters) are
  modelled as lists of Unicode code points (`List Nat`); Go's validators call
  `utf8.ValidString` first and reject invalid UTF-8, so the code-point view is
  faithful on the surviving domain.  The byte `/` (0x2F) never occurs inside a
  multi-byte UTF-8 sequence, so byte-level splitting/adjacency on `/` equals
  code-point-level splitting/adjacency.
* Raw wire packets are lists of bytes (`List Nat`, each < 256).
* Go `map` tables keyed by nested keys are flattened to association lists
  keyed by the pair; Go's delete-inner/delete-outer-when-empty dance is
  observationally the same as deleting the flattened key.
* `time.Time` fields are dropped: no settled claim depends on timestamps.
* A Go slice access `raw[i:j]` without a preceding bounds check is modelled by
  an explicit `panic` outcome when `j > len(raw)`, since Go panics there.
-/

namespace Goqtt

/-- Unicode code points of a Go string (topic name / topic filter). -/
abbrev Topic := List Nat

/-- `splitTopicLevels` / `strings.Split(s, "/")` on a non-empty string:
split at every `/` (0x2F), keeping empty segments.  On the empty string
`strings.Split` returns `[""]`, which this function also returns; the Go
helper `splitTopicLevels` special-cases `""` to `[]` but is only reached on
non-empty input (emptiness is rejected first). -/
def splitLevels : Topic → List Topic
  | [] => [[]]
  | c :: rest =>
    if c = 47 then
      [] :: splitLevels rest
    else
      match splitLevels rest with
      | [] => [[c]]
      | l :: ls => (c :: l) :: ls

/-- `hasEmptyLevels` from `encoding.go`: two consecutive `/` or a trailing `/`. -/
def hasEmptyLevels (t : Topic) : Bool :=
  (hasConsecutiveSlash t) || (match t.getLast? with
    | some c => c = 47
    | none => false)
where
  hasConsecutiveSlash : Topic → Bool
    | c1 :: c2 :: rest => (c1 = 47 && c2 = 47) || hasConsecutiveSlash (c2 :: rest)
    | _ => false

/-- `containsWildcards` from `encoding.go`. -/
def containsWildcards (t : Topic) : Bool :=
  t.any (fun c => c = 43 || c = 35)

/-- `containsSingleLevelWildcard` from `encoding.go` (`+` = 43). -/
def containsSingleLevelWildcard (level : Topic) : Bool :=
  level.any (fun c => c = 43)

/-- `containsMultiLevelWildcard` from `encoding.go` (`#` = 35). -/
def containsMultiLevelWildcard (level : Topic) : Bool :=
  level.any (fun c => c = 35)

/-- Error kinds of `pkg/er` that the topic validators produce. -/
inductive TopicErr where
  | emptyTopicFilter
  | emptyTopic
  | invalidUTF8Topic
  | nullCharacterInTopic
  | controlCharacterInTopic
  | wildcardsNotAllowedInPublish
  | emptyTopicLevel
  | invalidSingleLevelWildcard
  | invalidMultiLevelWildcard
  | multiLevelWildcardNotLast
  deriving DecidableEq, Repr

/-- `validateWildcards` from `encoding.go`: each level containing `+` must be
exactly `+`; each level containing `#` must be exactly `#` and be the last
level. -/
def validateWildcards (topicFilter : Topic) : Option TopicErr :=
  let levels := splitLevels topicFilter
  go levels levels.length 0
where
  go : List Topic → Nat → Nat → Option TopicErr
    | [], _, _ => none
    | level :: rest, total, i =>
      if containsSingleLevelWildcard level && level ≠ [43] then
        some .invalidSingleLevelWildcard
      else if containsMultiLevelWildcard level && level ≠ [35] then
        some .invalidMultiLevelWildcard
      else if containsMultiLevelWildcard level && i ≠ total - 1 then
        some .multiLevelWildcardNotLast
      else go rest total (i + 1)

/-- `ValidateTopicFilter` from `encoding.go`.  The `utf8.ValidString` check is
identically true on the code-point representation. -/
def validateTopicFilter (topicFilter : Topic) : Option TopicErr :=
  if topicFilter = [] then some .emptyTopicFilter
  else if topicFilter.any (fun c => c = 0) then some .nullCharacterInTopic
  else if hasEmptyLevels topicFilter then some .emptyTopicLevel
  else validateWildcards topicFilter

/-- `ValidateTopicName` from `encoding.go`. -/
def validateTopicName (topicName : Topic) : Option TopicErr :=
  if topicName = [] then some .emptyTopic
  else if topicName.any (fun c => c = 0) then some .nullCharacterInTopic
  else if topicName.any
      (fun c => (1 ≤ c && c ≤ 0x1F) || (0x7F ≤ c && c ≤ 0x9F)) then
    some .controlCharacterInTopic
  else if containsWildcards topicName then some .wildcardsNotAllowedInPublish
  else if hasEmptyLevels topicName then some .emptyTopicLevel
  else none

/-- `IsValidTopicFilter` (broker package). -/
def IsValidTopicFilter (topicFilter : Topic) : Bool :=
  validateTopicFilter topicFilter = none

/-- `IsValidTopicName` (broker package). -/
def IsValidTopicName (topicName : Topic) : Bool :=
  validateTopicName topicName = none

/-- `topicMatchesRecursive` from the broker's subscription code, with the two
index counters replaced by the suffixes they denote.  Note the order of the
exhaustion checks: when the name levels are exhausted while filter levels
remain, the function returns `false` before ever looking at the next filter
level (even if it is `#`). -/
def topicMatchesRec : List Topic → List Topic → Bool
  | [], nameLevels => nameLevels.isEmpty
  | _ :: _, [] => false
  | currentFilter :: fs, currentName :: ns =>
    if currentFilter = [43] then topicMatchesRec fs ns
    else if currentFilter = [35] then true
    else if currentFilter = currentName then topicMatchesRec fs ns
    else false

/-- `TopicMatches` from the broker package. -/
def TopicMatches (topicFilter topicName : Topic) : Bool :=
  if ¬ IsValidTopicFilter topicFilter then false
  else if ¬ IsValidTopicName topicName then false
  else topicMatchesRec (splitLevels topicFilter) (splitLevels topicName)

/-- A subscription entry held in a trie node: client id and granted QoS.  The
Go struct additionally stores a session pointer and a delivery closure; they
play no role in the matching claims. -/
structure SubEntry where
  clientID : String
  qos : Nat
  deriving DecidableEq, Repr

/-- `TrieNode` from the broker package: subscribers keyed by client id and
children keyed by level segment (association lists standing in for Go maps). -/
inductive TrieNode where
  | mk (subscribers : List SubEntry) (children : List (Topic × TrieNode))
  deriving Repr

/-- Subscribers of a node. -/
def TrieNode.subscribers : TrieNode → List SubEntry
  | .mk subs _ => subs

/-- Children of a node. -/
def TrieNode.children : TrieNode → List (Topic × TrieNode)
  | .mk _ ch => ch

/-- Go map lookup `children[level]`. -/
def lookupChild (ch : List (Topic × TrieNode)) (level : Topic) : Option TrieNode :=
  match ch with
  | [] => none
  | (k, v) :: rest => if k = level then some v else lookupChild rest level

/-- Go map assignment `children[level] = node` (replace or append). -/
def setChild (ch : List (Topic × TrieNode)) (level : Topic) (node : TrieNode) :
    List (Topic × TrieNode) :=
  match ch with
  | [] => [(level, node)]
  | (k, v) :: rest =>
    if k = level then (k, node) :: rest else (k, v) :: setChild rest level node

/-- Go map assignment `subscribers[clientID] = sub` (replace or append). -/
def setSubscriber (subs : List SubEntry) (clientID : String) (qos : Nat) :
    List SubEntry :=
  match subs with
  | [] => [⟨clientID, qos⟩]
  | s :: rest =>
    if s.clientID = clientID then ⟨clientID, qos⟩ :: rest
    else s :: setSubscriber rest clientID qos

/-- The fresh node the `Subscribe` loop creates for a missing level. -/
def TrieNode.empty : TrieNode := .mk [] []

/-- The level-descending loop of `SubscriptionTree.Subscribe`: create/descend
the path; on a `#` level the loop breaks right after descending, so the
subscription is attached to the `#` node and deeper levels are ignored.  The
subscription is added (replace-or-insert) at the final node. -/
def insertPath (clientID : String) (qos : Nat) : List Topic → TrieNode → TrieNode
  | [], .mk subs ch => .mk (setSubscriber subs clientID qos) ch
  | level :: rest, .mk subs ch =>
    let child := (lookupChild ch level).getD TrieNode.empty
    let child' :=
      if level = [35] then
        match child with
        | .mk csubs cch => TrieNode.mk (setSubscriber csubs clientID qos) cch
      else insertPath clientID qos rest child
    .mk subs (setChild ch level child')

/-- `SubscriptionTree.Subscribe`: validate the filter, then insert along the
split levels.  Returns the unchanged tree together with the validation error
when the filter is invalid. -/
def subscribe (clientID : String) (topicFilter : Topic) (qos : Nat)
    (root : TrieNode) : Except TopicErr TrieNode :=
  match validateTopicFilter topicFilter with
  | some e => .error e
  | none => .ok (insertPath clientID qos (splitLevels topicFilter) root)

/-- `matchRecursive` from `SubscriptionTree.Match`, with the level index
replaced by the remaining-levels suffix.  At each node it descends into the
exact child and the `+` child, and collects the subscribers of a `#` child
unconditionally; once all topic levels are consumed it collects the node's own
subscribers — without looking for a `#` child. -/
def matchRec (node : TrieNode) : List Topic → List SubEntry
  | [] => node.subscribers
  | currentLevel :: rest =>
    (match lookupChild node.children currentLevel with
     | some exactChild => matchRec exactChild rest
     | none => []) ++
    (match lookupChild node.children [43] with
     | some plusChild => matchRec plusChild rest
     | none => []) ++
    (match lookupChild node.children [35] with
     | some hashChild => hashChild.subscribers
     | none => [])

/-- `SubscriptionTree.Match`. -/
def trieMatch (root : TrieNode) (topic : Topic) : List SubEntry :=
  matchRec root (splitLevels topic)

mutual

/-- `removeClientFromTree` (the body of `SubscriptionTree.UnsubscribeAll`):
delete the client's subscriber entry at the current node, then recurse into
every child.  No node is ever deleted. -/
def removeClientFromTree (clientID : String) : TrieNode → TrieNode
  | .mk subs ch =>
    .mk (subs.filter (fun s => s.clientID ≠ clientID))
      (removeClientFromTreeL clientID ch)

/-- Recursion of `removeClientFromTree` over the children map. -/
def removeClientFromTreeL (clientID : String) :
    List (Topic × TrieNode) → List (Topic × TrieNode)
  | [] => []
  | (k, child) :: rest =>
    (k, removeClientFromTree clientID child) :: removeClientFromTreeL clientID rest

end

/-- `SubscriptionTree.UnsubscribeAll`. -/
def unsubscribeAll (clientID : String) (root : TrieNode) : TrieNode :=
  removeClientFromTree clientID root

/-- Whether a node is empty in the sense of `cleanupEmptyNodes`: no
subscribers and no children. -/
def TrieNode.isEmptyNode : TrieNode → Bool
  | .mk subs ch => subs.isEmpty && ch.isEmpty

mutual

/-- Whether some strict descendant (non-root node) of the tree is empty. -/
def anyEmptyDescendant : TrieNode → Bool
  | .mk _ ch => anyEmptyDescendantL ch

/-- Recursion of `anyEmptyDescendant` over a children map: each listed node is
a non-root node, so it counts itself and recurses below. -/
def anyEmptyDescendantL : List (Topic × TrieNode) → Bool
  | [] => false
  | (_, child) :: rest =>
    child.isEmptyNode || anyEmptyDescendant child || anyEmptyDescendantL rest

end

mutual

/-- Whether a subscriber entry for `clientID` occurs anywhere in the tree. -/
def clientInTree (clientID : String) : TrieNode → Bool
  | .mk subs ch =>
    subs.any (fun s => s.clientID = clientID) || clientInTreeL clientID ch

/-- Recursion of `clientInTree` over a children map. -/
def clientInTreeL (clientID : String) : List (Topic × TrieNode) → Bool
  | [] => false
  | (_, child) :: rest => clientInTree clientID child || clientInTreeL clientID rest

end

/-! ## QoS flow engine (`qos.go`, broker package) -/

/-- `ReceivedQoS2` sans the `Timestamp` field (time is modelled out). -/
structure ReceivedQoS2 where
  topic : Topic
  payload : List Nat
  retain : Bool
  deriving DecidableEq, Repr

/-- `PendingMessage` sans session pointer, timestamps and retry counters
(none of the settled claims depend on them). -/
structure PendingMessage where
  topic : Topic
  payload : List Nat
  qos : Nat
  retain : Bool
  deriving DecidableEq, Repr

/-- Flattened `(clientID, packetID)`-keyed table. -/
abbrev QTable (α : Type) := List ((String × Nat) × α)

/-- Go nested-map lookup `table[clientID][packetID]`. -/
def qLookup {α : Type} (t : QTable α) (key : String × Nat) : Option α :=
  match t with
  | [] => none
  | (k, v) :: rest => if k = key then some v else qLookup rest key

/-- Go nested-map assignment. -/
def qInsert {α : Type} (t : QTable α) (key : String × Nat) (v : α) : QTable α :=
  match t with
  | [] => [(key, v)]
  | (k, w) :: rest =>
    if k = key then (k, v) :: rest else (k, w) :: qInsert rest key v

/-- Go nested-map `delete` (with empty inner maps collapsed away, which the
flattened view renders invisible). -/
def qErase {α : Type} (t : QTable α) (key : String × Nat) : QTable α :=
  match t with
  | [] => []
  | (k, w) :: rest => if k = key then rest else (k, w) :: qErase rest key

/-- The three tables owned by `QoSManager`. -/
structure QoSManager where
  pendingQoS1 : QTable PendingMessage
  pendingQoS2 : QTable PendingMessage
  qos2Received : QTable ReceivedQoS2
  deriving DecidableEq, Repr

/-- The manager as created by `NewQoSManager`. -/
def QoSManager.empty : QoSManager := ⟨[], [], []⟩

/-- A PUBREC reply packet (`packet.PubrecPacket`). -/
structure PubrecPacket where
  packetID : Nat
  deriving DecidableEq, Repr

/-- A PUBCOMP reply packet (`packet.PubcompPacket`). -/
structure PubcompPacket where
  packetID : Nat
  deriving DecidableEq, Repr

/-- `QoSManager.HandleIncomingQoS2Publish`: a duplicate `(clientID, packetID)`
returns PUBREC again and leaves the state untouched; otherwise the message is
stored and PUBREC is returned. -/
def handleIncomingQoS2Publish (qm : QoSManager) (clientID : String)
    (packetID : Nat) (topic : Topic) (payload : List Nat) (retain : Bool) :
    PubrecPacket × QoSManager :=
  match qLookup qm.qos2Received (clientID, packetID) with
  | some _ => (⟨packetID⟩, qm)
  | none =>
    (⟨packetID⟩,
     { qm with
        qos2Received :=
          qInsert qm.qos2Received (clientID, packetID) ⟨topic, payload, retain⟩ })

/-- `QoSManager.HandleIncomingPubRel`: when the entry exists it is removed and
returned for delivery; either way a PUBCOMP is produced. -/
def handleIncomingPubRel (qm : QoSManager) (clientID : String) (packetID : Nat) :
    Option ReceivedQoS2 × PubcompPacket × QoSManager :=
  match qLookup qm.qos2Received (clientID, packetID) with
  | some msg =>
    (some msg, ⟨packetID⟩,
     { qm with qos2Received := qErase qm.qos2Received (clientID, packetID) })
  | none => (none, ⟨packetID⟩, qm)

/-- A call of `Broker.HandlePublish` made by `Broker.HandleIncomingPubRel`
when a PUBREL releases a stored message: the broker's publish path receives
the stored topic, payload, `QoS = QoSExactlyOnce` and retain flag. -/
structure Delivery where
  topic : Topic
  payload : List Nat
  qos : Nat
  retain : Bool
  deriving DecidableEq, Repr

/-- `Broker.HandleIncomingPubRel`: run the manager's PUBREL handler and, when
a stored message comes back, hand it to `Broker.HandlePublish` (recorded here
as a `Delivery`); the PUBCOMP is returned in every case. -/
def brokerHandleIncomingPubRel (qm : QoSManager) (clientID : String)
    (packetID : Nat) : Option Delivery × PubcompPacket × QoSManager :=
  match handleIncomingPubRel qm clientID packetID with
  | (some msg, pubcomp, qm') =>
    (some ⟨msg.topic, msg.payload, 2, msg.retain⟩, pubcomp, qm')
  | (none, pubcomp, qm') => (none, pubcomp, qm')

/-- Events of an inbound QoS 2 exchange as seen by the broker. -/
inductive QEvent where
  | pub (clientID : String) (packetID : Nat) (topic : Topic)
      (payload : List Nat) (retain : Bool)
  | rel (clientID : String) (packetID : Nat)
  deriving DecidableEq, Repr

/-- Reply packets produced during the exchange. -/
inductive QReply where
  | pubrec (packetID : Nat)
  | pubcomp (packetID : Nat)
  deriving DecidableEq, Repr

/-- One broker step on a QoS 2 exchange event, returning the new state, the
reply written to the client, and the delivery performed (if any). -/
def qStep (qm : QoSManager) : QEvent → QoSManager × QReply × Option Delivery
  | .pub clientID packetID topic payload retain =>
    let (pubrec, qm') := handleIncomingQoS2Publish qm clientID packetID topic payload retain
    (qm', .pubrec pubrec.packetID, none)
  | .rel clientID packetID =>
    let (delivery, pubcomp, qm') := brokerHandleIncomingPubRel qm clientID packetID
    (qm', .pubcomp pubcomp.packetID, delivery)

/-- Run a sequence of exchange events, accumulating replies and deliveries in
order. -/
def qRun (qm : QoSManager) : List QEvent → QoSManager × List QReply × List Delivery
  | [] => (qm, [], [])
  | e :: rest =>
    let (qm', reply, delivery) := qStep qm e
    let (qmFinal, replies, deliveries) := qRun qm' rest
    (qmFinal, reply :: replies, (delivery.toList) ++ deliveries)

/-! ## Remaining Length codec (`encoding.go`) -/

/-- The loop of `EncodeRemainingLength`: emit 7 bits at a time with a
continuation bit, stopping when the value is exhausted or four bytes have been
emitted. -/
def encodeRLLoop (length : Nat) (encoded : List Nat) : List Nat :=
  let encodedByte := length % 128
  let length' := length / 128
  let encodedByte' := if 0 < length' then encodedByte + 128 else encodedByte
  let encoded' := encoded ++ [encodedByte']
  if length' = 0 then encoded'
  else if 4 ≤ encoded'.length then encoded'
  else encodeRLLoop length' encoded'
termination_by length
decreasing_by
  simp_wf
  omega

/-- `EncodeRemainingLength`: negative lengths encode as `[0]`. -/
def encodeRemainingLength (length : Int) : List Nat :=
  if length < 0 then [0] else encodeRLLoop length.toNat []

/-- Errors of `ParseRemainingLength`. -/
inductive RLErr where
  | shortBuffer
  | remainingLengthExceeded
  deriving DecidableEq, Repr

/-- The loop of `ParseRemainingLength`: at each offset, first the short-buffer
check, then the four-byte cap, then accumulate `(b & 0x7F) * multiplier`,
reject values above 268435455, and continue while bit 7 of the byte is set.
Returns the decoded length and the number of bytes consumed. -/
def parseRLLoop (data : List Nat) (length multiplier offset : Nat) :
    Except RLErr (Nat × Nat) :=
  if data.length ≤ offset then .error .shortBuffer
  else if 4 ≤ offset then .error .remainingLengthExceeded
  else
    let encodedByte := data.getD offset 0
    let length' := length + (encodedByte % 128) * multiplier
    if 268435455 < length' then .error .remainingLengthExceeded
    else if encodedByte.testBit 7 then
      parseRLLoop data length' (multiplier * 128) (offset + 1)
    else .ok (length', offset + 1)
termination_by 4 - offset
decreasing_by
  simp_wf
  omega

/-- `ParseRemainingLength`. -/
def parseRemainingLength (data : List Nat) : Except RLErr (Nat × Nat) :=
  parseRLLoop data 0 1 0

/-! ## Packet-id allocation (`Broker.generatePacketID`) -/

/-- `Broker.generatePacketID` on an explicit counter: `atomic.AddUint32`
increments the u32 counter and returns the new value; if that value is 0 the
counter is bumped once more; the result is truncated to u16.  Returns the new
counter value and the returned packet id. -/
def generatePacketID (packetIDSeq : Nat) : Nat × Nat :=
  let id := (packetIDSeq + 1) % 4294967296
  if id = 0 then
    let id' := (id + 1) % 4294967296
    (id', id' % 65536)
  else (id, id % 65536)

/-! ## CONNECT parser (`ConnectPacket.Parse`, packet package)

Raw packets are byte lists.  Every bounds-checked Go read is modelled by the
same explicit check; the one read that Go performs *without* a preceding
bounds check (the two client-id length bytes) is modelled by a `panic`
outcome, since out-of-range slicing panics in Go. -/

/-- Big-endian `binary.BigEndian.Uint16(raw[offset : offset+2])`; callers
establish the bounds. -/
def beU16 (raw : List Nat) (offset : Nat) : Nat :=
  raw.getD offset 0 * 256 + raw.getD (offset + 1) 0

/-- `raw[offset : offset+n]`. -/
def byteSlice (raw : List Nat) (offset n : Nat) : List Nat :=
  (raw.drop offset).take n

/-- The fully decoded `ConnectPacket` fields (the `Raw` back-reference is
dropped). -/
structure ConnectPacket where
  protocolName : List Nat
  protocolLevel : Nat
  usernameFlag : Bool
  passwordFlag : Bool
  willRetain : Bool
  willQoS : Nat
  willFlag : Bool
  cleanSession : Bool
  keepAlive : Nat
  clientID : List Nat
  willTopic : Option (List Nat)
  willMessage : Option (List Nat)
  username : Option (List Nat)
  password : Option (List Nat)
  deriving DecidableEq, Repr

/-- Error kinds of `pkg/er` produced by the CONNECT parser. -/
inductive CErr where
  | invalidConnPacket
  | unsupportedProtocolName
  | unsupportedProtocolLevel
  | invalidWillQoS
  | identifierRejected
  | clientIDLengthExceed
  | invalidCharsClientID
  | passwordWithoutUsername
  | malformedUsernameField
  | malformedPasswordField
  deriving DecidableEq, Repr

/-- Outcome of running the parser on a byte slice: a decoded packet, a typed
error, or a Go runtime panic from an out-of-range slice access. -/
inductive CResult where
  | ok (cp : ConnectPacket)
  | err (e : CErr)
  | panic
  deriving DecidableEq, Repr

/-- Allowed client-id characters `0-9a-zA-Z` (ASCII; every non-allowed byte
yields a non-allowed rune). -/
def isAllowedClientIDByte (c : Nat) : Bool :=
  (48 ≤ c && c ≤ 57) || (97 ≤ c && c ≤ 122) || (65 ≤ c && c ≤ 90)

/-- Verdicts of `ConnectPacket.ValidateClientID`, in the order the Go code
tests them. -/
inductive ClientIDCheck where
  | emptyAndCleanSessionClientID
  | emptyClientID
  | lengthExceed
  | invalidChars
  | valid
  deriving DecidableEq, Repr

/-- `ConnectPacket.ValidateClientID`: empty ids are flagged (differently
according to `cleanSession`), then the 23-byte cap, then the charset. -/
def validateClientID (clientID : List Nat) (cleanSession : Bool) : ClientIDCheck :=
  if clientID.length = 0 then
    if ¬ cleanSession then .emptyAndCleanSessionClientID else .emptyClientID
  else if 23 < clientID.length then .lengthExceed
  else if clientID.all isAllowedClientIDByte then .valid
  else .invalidChars

/-- Stand-in for `uuid.NewString()` assigned to an empty client id: the call
is external and nondeterministic; no settled claim depends on its value. -/
def assignedClientID : List Nat := [117, 117, 105, 100]

/-- Password section of `ConnectPacket.Parse` and the final packet assembly:
when the password flag is set, two guarded reads produce the password. -/
def connectParsePassword (raw : List Nat) (offset : Nat)
    (protocolName : List Nat) (protocolLevel : Nat)
    (usernameFlag passwordFlag willRetain : Bool) (willQoS : Nat)
    (willFlag cleanSession : Bool) (keepAlive : Nat) (clientID : List Nat)
    (willTopic willMessage username : Option (List Nat)) : CResult :=
  if passwordFlag then
    if raw.length < offset + 2 then .err .malformedPasswordField
    else
      let passwordLen := beU16 raw offset
      let offset := offset + 2
      if raw.length < offset + passwordLen then .err .malformedPasswordField
      else
        .ok ⟨protocolName, protocolLevel, usernameFlag, passwordFlag,
          willRetain, willQoS, willFlag, cleanSession, keepAlive, clientID,
          willTopic, willMessage, username, some (byteSlice raw offset passwordLen)⟩
  else
    .ok ⟨protocolName, protocolLevel, usernameFlag, passwordFlag,
      willRetain, willQoS, willFlag, cleanSession, keepAlive, clientID,
      willTopic, willMessage, username, none⟩

/-- Username section of `ConnectPacket.Parse`. -/
def connectParseUsername (raw : List Nat) (offset : Nat)
    (protocolName : List Nat) (protocolLevel : Nat)
    (usernameFlag passwordFlag willRetain : Bool) (willQoS : Nat)
    (willFlag cleanSession : Bool) (keepAlive : Nat) (clientID : List Nat)
    (willTopic willMessage : Option (List Nat)) : CResult :=
  if usernameFlag then
    if raw.length < offset + 2 then .err .malformedUsernameField
    else
      let usernameLen := beU16 raw offset
      let offset := offset + 2
      if raw.length < offset + usernameLen then .err .malformedUsernameField
      else
        connectParsePassword raw (offset + usernameLen) protocolName
          protocolLevel usernameFlag passwordFlag willRetain willQoS willFlag
          cleanSession keepAlive clientID willTopic willMessage
          (some (byteSlice raw offset usernameLen))
  else
    connectParsePassword raw offset protocolName protocolLevel usernameFlag
      passwordFlag willRetain willQoS willFlag cleanSession keepAlive clientID
      willTopic willMessage none

/-- The username/password dependency check of `ConnectPacket.Parse`, followed
by the username and password sections. -/
def connectParseTail (raw : List Nat) (offset : Nat)
    (protocolName : List Nat) (protocolLevel : Nat)
    (usernameFlag passwordFlag willRetain : Bool) (willQoS : Nat)
    (willFlag cleanSession : Bool) (keepAlive : Nat) (clientID : List Nat)
    (willTopic willMessage : Option (List Nat)) : CResult :=
  if (!usernameFlag) && passwordFlag then .err .passwordWithoutUsername
  else
    connectParseUsername raw offset protocolName protocolLevel usernameFlag
      passwordFlag willRetain willQoS willFlag cleanSession keepAlive clientID
      willTopic willMessage

/-- Will section of `ConnectPacket.Parse`: parsed only when the will flag is
set; otherwise both will strings stay absent. -/
def connectParseWill (raw : List Nat) (offset : Nat)
    (protocolName : List Nat) (protocolLevel : Nat)
    (usernameFlag passwordFlag willRetain : Bool) (willQoS : Nat)
    (willFlag cleanSession : Bool) (keepAlive : Nat) (clientID : List Nat) :
    CResult :=
  if willFlag then
    if raw.length < offset + 2 then .err .invalidConnPacket
    else
      let willTopicLen := beU16 raw offset
      let offset := offset + 2
      if raw.length < offset + willTopicLen then .err .invalidConnPacket
      else
        let willTopic := byteSlice raw offset willTopicLen
        let offset := offset + willTopicLen
        if raw.length < offset + 2 then .err .invalidConnPacket
        else
          let willMessageLen := beU16 raw offset
          let offset := offset + 2
          if raw.length < offset + willMessageLen then .err .invalidConnPacket
          else
            connectParseTail raw (offset + willMessageLen) protocolName
              protocolLevel usernameFlag passwordFlag willRetain willQoS
              willFlag cleanSession keepAlive clientID (some willTopic)
              (some (byteSlice raw offset willMessageLen))
  else
    connectParseTail raw offset protocolName protocolLevel usernameFlag
      passwordFlag willRetain willQoS willFlag cleanSession keepAlive clientID
      none none

/-- Client-id section of `ConnectPacket.Parse`.  The two length bytes are read
*without* a bounds check in the Go source (both `ConnectPacket.Parse` and
`ParseConnect`), so a packet ending exactly after the keep-alive field hits an
out-of-range slice: modelled as `panic`. -/
def connectParseClientID (raw : List Nat) (offset : Nat)
    (protocolName : List Nat) (protocolLevel : Nat)
    (usernameFlag passwordFlag willRetain : Bool) (willQoS : Nat)
    (willFlag cleanSession : Bool) (keepAlive : Nat) : CResult :=
  if raw.length < offset + 2 then .panic
  else
    let clientIDLen := beU16 raw offset
    let offset := offset + 2
    if raw.length < offset + clientIDLen then .err .invalidConnPacket
    else
      let clientID := byteSlice raw offset clientIDLen
      let offset := offset + clientIDLen
      match validateClientID clientID cleanSession with
      | .emptyClientID =>
        connectParseWill raw offset protocolName protocolLevel usernameFlag
          passwordFlag willRetain willQoS willFlag cleanSession keepAlive
          assignedClientID
      | .emptyAndCleanSessionClientID => .err .identifierRejected
      | .lengthExceed => .err .clientIDLengthExceed
      | .invalidChars => .err .invalidCharsClientID
      | .valid =>
        connectParseWill raw offset protocolName protocolLevel usernameFlag
          passwordFlag willRetain willQoS willFlag cleanSession keepAlive
          clientID

/-- Protocol-level / flag-byte / keep-alive section of `ConnectPacket.Parse`.
`offset` points at the flag byte (one past the protocol level); the flag byte
is decomposed into its bits exactly as in the source, the will-QoS range is
checked only when the will flag is set, and the keep-alive (two bytes from
`offset + 1`) is read after its bounds check. -/
def connectParseFlags (raw : List Nat) (offset : Nat)
    (protocolName : List Nat) (protocolLevel : Nat) : CResult :=
  if protocolLevel ≠ 4 then .err .unsupportedProtocolLevel
  else if raw.length ≤ offset then .err .invalidConnPacket
  else if (raw.getD offset 0 &&& 0x04 != 0)
      && ((raw.getD offset 0 &&& 0x18) >>> 3 > 2) then
    .err .invalidWillQoS
  else if raw.length < offset + 1 + 2 then .err .invalidConnPacket
  else
    connectParseClientID raw (offset + 1 + 2) protocolName protocolLevel
      (raw.getD offset 0 &&& 0x80 != 0)
      (raw.getD offset 0 &&& 0x40 != 0)
      (raw.getD offset 0 &&& 0x20 != 0)
      ((raw.getD offset 0 &&& 0x18) >>> 3)
      (raw.getD offset 0 &&& 0x04 != 0)
      (raw.getD offset 0 &&& 0x02 != 0)
      (beU16 raw (offset + 1))

/-- `ConnectPacket.Parse` (fixed-header / variable-header section): the
10-byte minimum, the type nibble, the protocol-name length (`beU16 raw 2`)
and the protocol name itself, then the protocol level at `4 + beU16 raw 2`,
delegating to the flag-byte section at the following offset. -/
def connectParse (raw : List Nat) : CResult :=
  if raw.length < 10 then .err .invalidConnPacket
  else if raw.getD 0 0 &&& 0xF0 ≠ 0x10 then .err .invalidConnPacket
  else if raw.length < 2 + 2 then .err .invalidConnPacket
  else if raw.length < 4 + beU16 raw 2 then .err .invalidConnPacket
  else if byteSlice raw 4 (beU16 raw 2) ≠ [77, 81, 84, 84] then
    .err .unsupportedProtocolName
  else if raw.length ≤ 4 + beU16 raw 2 then .err .invalidConnPacket
  else
    connectParseFlags raw (4 + beU16 raw 2 + 1) (byteSlice raw 4 (beU16 raw 2))
      (raw.getD (4 + beU16 raw 2) 0)

/-! ## Connection loop: framing phase (`handleConnection`, tcp.go) -/

/-- Outbound packets written to a client socket, as structured events. -/
inductive WriteEv where
  | connack (sessionPresent : Bool) (returnCode : Nat)
  | publish (topic : Topic) (payload : List Nat) (qos : Nat) (retain : Bool)
  | suback (packetID : Nat) (returnCodes : List Nat)
  deriving DecidableEq, Repr

/-- Outcome of the Remaining-Length read loop in `handleConnection`. -/
inductive RemLenOutcome where
  | tooLarge
  | readErr
  | ok (remainingLength : Nat) (consumed : List Nat) (rest : List Nat)
  deriving DecidableEq, Repr

/-- The Remaining-Length read loop of `handleConnection` (tcp.go): before each
byte it checks whether four bytes were already stored (then: too large), reads
the next byte, accumulates its 7 low bits, and continues while bit 7 is
set. -/
def readRemLenLoop (stream : List Nat) (remLenOffset remainingLength multiplier : Nat)
    (consumed : List Nat) : RemLenOutcome :=
  if 4 ≤ remLenOffset then .tooLarge
  else
    match stream with
    | [] => .readErr
    | b :: rest =>
      let remainingLength' := remainingLength + (b % 128) * multiplier
      if b.testBit 7 then
        readRemLenLoop rest (remLenOffset + 1) remainingLength' (multiplier * 128)
          (consumed ++ [b])
      else .ok remainingLength' (consumed ++ [b]) rest

/-- Outcome of one framing phase of the connection loop: either the connection
closes (with the packets written on the way out), or a full packet has been
framed and the loop proceeds to `pkt.Parse`. -/
inductive FrameOutcome where
  | close (writes : List WriteEv)
  | framed (rawPacket : List Nat) (restStream : List Nat)
  deriving DecidableEq, Repr

/-- The framing phase of one iteration of `handleConnection`'s read loop
(tcp.go: fixed-header byte, Remaining-Length loop, full-packet read).  This
code runs before the `sessionEstablished` test, so it behaves identically in
`AwaitConnect` and in `Established`; in particular an oversized Remaining
Length answers `NewConnAck(false, UnacceptableProtocolVersion)` and closes,
regardless of the session state. -/
def handleConnectionFraming (sessionEstablished : Bool) (stream : List Nat) :
    FrameOutcome :=
  match sessionEstablished, stream with
  | _, [] => .close []
  | _, fixedHeaderByte :: rest =>
    match readRemLenLoop rest 0 0 1 [] with
    | .tooLarge => .close [.connack false 1]
    | .readErr => .close []
    | .ok remainingLength consumed rest' =>
      if remainingLength ≤ rest'.length then
        .framed (fixedHeaderByte :: consumed ++ rest'.take remainingLength)
          (rest'.drop remainingLength)
      else .close []

/-! ## Subscribe handling and retained delivery (`Broker.HandleSubscribe` +
the SUBSCRIBE arm of `handleConnection`) -/

/-- A retained message as stored by the broker (`RetainedMessage`). -/
structure RetainedMsg where
  topic : Topic
  payload : List Nat
  qos : Nat
  deriving DecidableEq, Repr

/-- `Broker.getGrantedQoS`. -/
def getGrantedQoS (requestedQoS : Nat) : Nat :=
  if 2 < requestedQoS then 2 else requestedQoS

/-- `minQoS`. -/
def minQoS (qos1 qos2 : Nat) : Nat :=
  if qos1 < qos2 then qos1 else qos2

/-- `Broker.sendRetainedMessages`: for every stored retained message whose
topic matches the new filter, `deliverMessage` writes a PUBLISH (retain=true,
QoS = min of stored and granted) to the subscriber's socket.  The Go map
iteration order is unspecified; the list order stands in for one such order.
Packet-id generation and pending-table bookkeeping for QoS>0 deliveries do not
produce extra socket writes and are omitted. -/
def sendRetainedMessages (retainedMsgs : List RetainedMsg) (topicFilter : Topic)
    (maxQoS : Nat) : List WriteEv :=
  match retainedMsgs with
  | [] => []
  | m :: rest =>
    (if TopicMatches topicFilter m.topic then
      [.publish m.topic m.payload (minQoS m.qos maxQoS) true]
    else []) ++ sendRetainedMessages rest topicFilter maxQoS

/-- The SUBACK return code chosen from the granted QoS in
`Broker.HandleSubscribe`. -/
def subackReturnCode (grantedQoS : Nat) : Nat :=
  match grantedQoS with
  | 0 => 0x00
  | 1 => 0x01
  | 2 => 0x02
  | _ => 0x80

/-- `packet.SubackPacket`. -/
structure SubackPacket where
  packetID : Nat
  returnCodes : List Nat
  deriving DecidableEq, Repr

/-- The per-filter loop of `Broker.HandleSubscribe`: validate the filter
(failure ⇒ code 0x80), insert into the subscription tree, grant a QoS, and
deliver matching retained messages — writing them to the subscriber's socket
*during* subscribe processing.  Returns the socket writes, the return codes
and the updated tree. -/
def handleSubscribeLoop (clientID : String) (retainedMsgs : List RetainedMsg)
    (filters : List (Topic × Nat)) (tree : TrieNode) :
    List WriteEv × List Nat × TrieNode :=
  match filters with
  | [] => ([], [], tree)
  | (ftopic, fqos) :: rest =>
    match validateTopicFilter ftopic with
    | some _ =>
      let (evs, codes, tree') := handleSubscribeLoop clientID retainedMsgs rest tree
      (evs, 0x80 :: codes, tree')
    | none =>
      match subscribe clientID ftopic fqos tree with
      | .error _ =>
        let (evs, codes, tree') := handleSubscribeLoop clientID retainedMsgs rest tree
        (evs, 0x80 :: codes, tree')
      | .ok tree1 =>
        let grantedQoS := getGrantedQoS fqos
        let code := subackReturnCode grantedQoS
        let retainedEvs := sendRetainedMessages retainedMsgs ftopic grantedQoS
        let (evs, codes, tree') := handleSubscribeLoop clientID retainedMsgs rest tree1
        (retainedEvs ++ evs, code :: codes, tree')

/-- `Broker.HandleSubscribe`: run the filter loop and return the SUBACK packet
built from the collected return codes, alongside the writes it already made. -/
def brokerHandleSubscribe (clientID : String) (retainedMsgs : List RetainedMsg)
    (packetID : Nat) (filters : List (Topic × Nat)) (tree : TrieNode) :
    List WriteEv × SubackPacket × TrieNode :=
  let (evs, codes, tree') := handleSubscribeLoop clientID retainedMsgs filters tree
  (evs, ⟨packetID, codes⟩, tree')

/-- The SUBSCRIBE arm of `handleConnection` (tcp.go): call
`Broker.HandleSubscribe`, then write the returned SUBACK to the socket.  The
result is the complete ordered list of packets written to the subscriber for
this SUBSCRIBE. -/
def tcpHandleSubscribe (clientID : String) (retainedMsgs : List RetainedMsg)
    (packetID : Nat) (filters : List (Topic × Nat)) (tree : TrieNode) :
    List WriteEv :=
  let (evs, suback, _) :=
    brokerHandleSubscribe clientID retainedMsgs packetID filters tree
  evs ++ [.suback suback.packetID suback.returnCodes]

/-- Whether a write event is a PUBLISH. -/
def WriteEv.isPublish : WriteEv → Bool
  | .publish _ _ _ _ => true
  | _ => false

mutual

/-- The tree with every subscriber list blanked: captures the node/children
structure alone. -/
def eraseSubs : TrieNode → TrieNode
  | .mk _ ch => .mk [] (eraseSubsL ch)

/-- Recursion of `eraseSubs` over a children map. -/
def eraseSubsL : List (Topic × TrieNode) → List (Topic × TrieNode)
  | [] => []
  | (k, child) :: rest => (k, eraseSubs child) :: eraseSubsL rest

end

/-! ## Concrete inputs used by refutations and bug evaluations -/

/-- The subscription tree holding exactly one subscription, client `c1` on
filter `p/#`. -/
def hashParentTrie : TrieNode :=
  .mk [] [([112], .mk [] [([35], .mk [⟨"c1", 0⟩] [])])]

/-- A framed CONNECT of total length 12: type `0x10`, Remaining Length 10,
protocol name `MQTT`, level 4, flags `0x02` (clean session), keep-alive 60 —
and nothing after the keep-alive field. -/
def shortConnectRaw : List Nat :=
  [0x10, 0x0A, 0x00, 0x04, 77, 81, 84, 84, 4, 0x02, 0x00, 60]

/-- A framed CONNECT with flag byte `0x12`: will-QoS bits = 2 while the will
flag is 0 (plus clean session), client id `a`. -/
def willQoSRaw : List Nat :=
  [0x10, 0x0D, 0x00, 0x04, 77, 81, 84, 84, 4, 0x12, 0x00, 60, 0x00, 0x01, 97]

/-- The packet `connectParse` accepts for `willQoSRaw`. -/
def willQoSPacket : ConnectPacket :=
  ⟨[77, 81, 84, 84], 4, false, false, false, 2, false, true, 60, [97],
    none, none, none, none⟩

/-- A well-formed CONNECT (flags `0x02`, client id `a`). -/
def validConnectRaw : List Nat :=
  [0x10, 0x0D, 0x00, 0x04, 77, 81, 84, 84, 4, 0x02, 0x00, 60, 0x00, 0x01, 97]

/-- The packet `connectParse` accepts for `validConnectRaw`. -/
def validConnectPacket : ConnectPacket :=
  ⟨[77, 81, 84, 84], 4, false, false, false, 0, false, true, 60, [97],
    none, none, none, none⟩

/-- One retained message: topic `s/t`, payload `ON`, QoS 0. -/
def retainedST : List RetainedMsg := [⟨[115, 47, 116], [79, 78], 0⟩]

/-! ## Theorems -/

/-- C1.  The level-walk as implemented does NOT let `#` cover zero remaining
levels: for the valid name `p` and the valid filter `p/#` (obtained by
appending `/#` to `p`), `TopicMatches` answers `false`, and the trie holding
that single subscription matches nothing on topic `p` — although both answer
positively one level deeper (`p/x`).  The exhaustion check for the name runs
before the `#` case in `topicMatchesRecursive`, and `matchRecursive` collects
only the node's own subscribers once the levels are consumed, never a `#`
child's. -/
theorem topicMatches_hash_parent_bug :
    IsValidTopicFilter [112, 47, 35] = true ∧
    IsValidTopicName [112] = true ∧
    TopicMatches [112, 47, 35] [112] = false ∧
    TopicMatches [112, 47, 35] [112, 47, 120] = true ∧
    subscribe "c1" [112, 47, 35] 0 TrieNode.empty = .ok hashParentTrie ∧
    trieMatch hashParentTrie [112] = [] ∧
    trieMatch hashParentTrie [112, 47, 120] = [⟨"c1", 0⟩] := by
  repeat constructor

/-- C3.  After the session is established, a framing error still writes a
CONNACK: the Remaining-Length loop of `handleConnection` answers an oversized
Remaining Length (four continuation bytes) with
`NewConnAck(false, UnacceptableProtocolVersion)` regardless of the session
state, because the framing and parse-error paths never consult
`sessionEstablished`. -/
theorem established_framing_error_writes_connack :
    handleConnectionFraming true [0x82, 0x80, 0x80, 0x80, 0x80] =
      .close [.connack false 1] ∧
    handleConnectionFraming true [0x82, 0x80, 0x80, 0x80, 0x80] =
      handleConnectionFraming false [0x82, 0x80, 0x80, 0x80, 0x80] := by
  constructor <;> rfl

/-- C7.  The packet-id allocator returns the 16-bit value 0 on the 65536th
allocation: the zero-skip tests the u32 counter, not its u16 truncation, so at
counter value 65535 the increment yields 65536 and `uint16(65536) = 0`. -/
theorem generatePacketID_wraps_to_zero :
    generatePacketID 65535 = (65536, 0) ∧
    (generatePacketID 65534).2 = 65535 ∧
    (generatePacketID 65536).2 = 1 := by
  repeat constructor

/-- C8.  `ConnectPacket.Parse` panics on a 12-byte framed CONNECT (Remaining
Length 10: protocol name, level, flags and keep-alive, with no payload): the
two client-id length bytes are read without a bounds check, so
`raw[12:14]` slices out of range. -/
theorem connectParse_short_connect_panics :
    connectParse shortConnectRaw = .panic := by
  rfl

/-- C4 counterexample.  With one retained message on `s/t` and a subscribe to
`s/+`, the complete write sequence of the SUBSCRIBE handling is the retained
PUBLISH *followed by* the SUBACK: the SUBACK is not the first outbound packet
after the subscribe. -/
theorem suback_not_first_counterexample :
    tcpHandleSubscribe "c1" retainedST 1 [([115, 47, 43], 0)] TrieNode.empty =
      [.publish [115, 47, 116] [79, 78] 0 true, .suback 1 [0]] ∧
    (tcpHandleSubscribe "c1" retainedST 1 [([115, 47, 43], 0)]
        TrieNode.empty).head? ≠ some (.suback 1 [0]) := by
  constructor
  · rfl
  · decide

/-- C5 counterexample.  Subscribing client `c1` to filter `a` and then
running `UnsubscribeAll("c1")` leaves the now-empty node for level `a` in the
tree: `UnsubscribeAll` never collapses empty nodes. -/
theorem unsubscribeAll_empty_node_counterexample :
    subscribe "c1" [97] 0 TrieNode.empty =
      .ok (.mk [] [([97], .mk [⟨"c1", 0⟩] [])]) ∧
    unsubscribeAll "c1" (.mk [] [([97], .mk [⟨"c1", 0⟩] [])]) =
      .mk [] [([97], .mk [] [])] ∧
    anyEmptyDescendant (.mk [] [([97], .mk [] [])]) = true := by
  refine ⟨rfl, rfl, rfl⟩

/-- C9 counterexample.  A CONNECT whose flag byte sets the will-QoS bits to 2
while the will flag is 0 is accepted by the parser with `willQoS = 2`: the
will-QoS range check runs only when the will flag is set, so the invariant
"will_flag = false ⇒ will_qos = 0" does not hold of accepted packets, and
such a CONNECT is not rejected. -/
theorem connect_will_qos_unchecked_counterexample :
    connectParse willQoSRaw = .ok willQoSPacket ∧
    willQoSPacket.willFlag = false ∧
    willQoSPacket.willQoS = 2 := by
  refine ⟨rfl, rfl, rfl⟩

/-- Looking up the key just inserted yields the inserted value. -/
theorem qLookup_qInsert_self {α : Type} (t : QTable α) (k : String × Nat) (v : α) :
    qLookup (qInsert t k v) k = some v := by
  induction t with
  | nil => simp [qInsert, qLookup]
  | cons hd tl ih =>
    by_cases hk : hd.1 = k
    · simp [qInsert, qLookup, hk]
    · simp [qInsert, qLookup, hk, ih]

/-- Inserting a key absent from the table and erasing it again restores the
table. -/
theorem qErase_qInsert_fresh {α : Type} (t : QTable α) (k : String × Nat) (v : α)
    (h : qLookup t k = none) : qErase (qInsert t k v) k = t := by
  induction t with
  | nil => simp [qInsert, qErase]
  | cons hd tl ih =>
    by_cases hk : hd.1 = k
    · simp [qLookup, hk] at h
    · simp [qLookup, hk] at h
      simp [qInsert, qErase, hk, ih h]

/-- C10.  A PUBREL whose `(clientID, packetID)` is not in the received-QoS2
table still produces a PUBCOMP, hands nothing to the broker's publish path,
and leaves the QoS manager — all three tables — unchanged. -/
theorem pubrel_without_entry_pubcomp_no_delivery (qm : QoSManager)
    (clientID : String) (packetID : Nat)
    (h : qLookup qm.qos2Received (clientID, packetID) = none) :
    brokerHandleIncomingPubRel qm clientID packetID = (none, ⟨packetID⟩, qm) := by
  simp [brokerHandleIncomingPubRel, handleIncomingPubRel, h]

/-- C10 witness: the empty manager has no entry for `("c1", 7)`, and the
PUBREL is answered by PUBCOMP 7 with no delivery and no state change. -/
theorem pubrel_without_entry_pubcomp_no_delivery_witness :
    qLookup QoSManager.empty.qos2Received ("c1", 7) = none ∧
    brokerHandleIncomingPubRel QoSManager.empty "c1" 7 =
      (none, ⟨7⟩, QoSManager.empty) :=
  ⟨rfl, pubrel_without_entry_pubcomp_no_delivery QoSManager.empty "c1" 7 rfl⟩

/-- C2.  Duplicate suppression and exactly-once delivery for inbound QoS 2,
for any starting manager state with `(c, p)` not yet present:
(i) whenever `(c, p)` *is* present in the received table, a further QoS 2
PUBLISH for it returns PUBREC and leaves the whole state (in particular the
stored entry) unchanged, delivering nothing;
(ii) in the exchange PUBLISH, duplicate PUBLISH, PUBREL, PUBREL starting from
a fresh `(c, p)`: both PUBLISHes are answered by PUBREC with no delivery, the
entry stored by the first PUBLISH is still the original after the duplicate,
the payload is handed to the broker's publish path exactly once — at the
first PUBREL — and both PUBRELs are answered by PUBCOMP. -/
theorem qos2_duplicate_exactly_once (qm : QoSManager) (c : String) (p : Nat)
    (t : Topic) (pl : List Nat) (r : Bool)
    (hfresh : qLookup qm.qos2Received (c, p) = none) :
    (∀ (qm' : QoSManager) (e : ReceivedQoS2) (t' : Topic) (pl' : List Nat)
        (r' : Bool), qLookup qm'.qos2Received (c, p) = some e →
      handleIncomingQoS2Publish qm' c p t' pl' r' = (⟨p⟩, qm')) ∧
    (qRun qm [.pub c p t pl r, .pub c p t pl r]).2.2 = [] ∧
    (qRun qm [.pub c p t pl r, .pub c p t pl r]).2.1 =
      [.pubrec p, .pubrec p] ∧
    qLookup (qRun qm [.pub c p t pl r, .pub c p t pl r]).1.qos2Received (c, p) =
      some ⟨t, pl, r⟩ ∧
    (qRun qm [.pub c p t pl r, .pub c p t pl r, .rel c p]).2.2 =
      [⟨t, pl, 2, r⟩] ∧
    (qRun qm [.pub c p t pl r, .pub c p t pl r, .rel c p, .rel c p]).2.2 =
      [⟨t, pl, 2, r⟩] ∧
    (qRun qm [.pub c p t pl r, .pub c p t pl r, .rel c p, .rel c p]).2.1 =
      [.pubrec p, .pubrec p, .pubcomp p, .pubcomp p] := by
  refine ⟨fun qm' e t' pl' r' hdup => ?_, ?_, ?_, ?_, ?_, ?_, ?_⟩ <;>
    simp [qRun, qStep, handleIncomingQoS2Publish, brokerHandleIncomingPubRel,
      handleIncomingPubRel, hfresh, qLookup_qInsert_self,
      qErase_qInsert_fresh _ _ _ hfresh, *]

/-- C2 witness: from the empty manager with client `c1`, packet id 7, topic
`x`, payload `p`, the whole conclusion holds. -/
theorem qos2_duplicate_exactly_once_witness :
    qLookup QoSManager.empty.qos2Received ("c1", 7) = none ∧
    ((∀ (qm' : QoSManager) (e : ReceivedQoS2) (t' : Topic) (pl' : List Nat)
        (r' : Bool), qLookup qm'.qos2Received ("c1", 7) = some e →
      handleIncomingQoS2Publish qm' "c1" 7 t' pl' r' = (⟨7⟩, qm')) ∧
    (qRun QoSManager.empty
      [.pub "c1" 7 [120] [112] false, .pub "c1" 7 [120] [112] false]).2.2 = [] ∧
    (qRun QoSManager.empty
      [.pub "c1" 7 [120] [112] false, .pub "c1" 7 [120] [112] false]).2.1 =
      [.pubrec 7, .pubrec 7] ∧
    qLookup (qRun QoSManager.empty
      [.pub "c1" 7 [120] [112] false,
        .pub "c1" 7 [120] [112] false]).1.qos2Received ("c1", 7) =
      some ⟨[120], [112], false⟩ ∧
    (qRun QoSManager.empty
      [.pub "c1" 7 [120] [112] false, .pub "c1" 7 [120] [112] false,
        .rel "c1" 7]).2.2 = [⟨[120], [112], 2, false⟩] ∧
    (qRun QoSManager.empty
      [.pub "c1" 7 [120] [112] false, .pub "c1" 7 [120] [112] false,
        .rel "c1" 7, .rel "c1" 7]).2.2 = [⟨[120], [112], 2, false⟩] ∧
    (qRun QoSManager.empty
      [.pub "c1" 7 [120] [112] false, .pub "c1" 7 [120] [112] false,
        .rel "c1" 7, .rel "c1" 7]).2.1 =
      [.pubrec 7, .pubrec 7, .pubcomp 7, .pubcomp 7]) :=
  ⟨rfl, qos2_duplicate_exactly_once QoSManager.empty "c1" 7 [120] [112] false rfl⟩

/-- Fields of a packet accepted by the trailing password section: the flags
and will strings are exactly the values handed in. -/
theorem connectParsePassword_ok_fields {raw : List Nat} {offset : Nat}
    {pName : List Nat} {pLevel : Nat} {uF pF wR : Bool} {wQ : Nat} {wF cS : Bool}
    {kA : Nat} {cID : List Nat} {wT wM uN : Option (List Nat)} {cp : ConnectPacket}
    (h : connectParsePassword raw offset pName pLevel uF pF wR wQ wF cS kA cID
      wT wM uN = .ok cp) :
    cp.usernameFlag = uF ∧ cp.passwordFlag = pF ∧ cp.willFlag = wF ∧
    cp.willQoS = wQ ∧ cp.willTopic = wT ∧ cp.willMessage = wM := by
  unfold connectParsePassword at h
  simp only [] at h
  iterate 4 (all_goals try split at h)
  all_goals try exact CResult.noConfusion h
  all_goals (rw [CResult.ok.injEq] at h; subst h)
  all_goals exact ⟨rfl, rfl, rfl, rfl, rfl, rfl⟩

/-- The username section preserves the flag and will fields. -/
theorem connectParseUsername_ok_fields {raw : List Nat} {offset : Nat}
    {pName : List Nat} {pLevel : Nat} {uF pF wR : Bool} {wQ : Nat} {wF cS : Bool}
    {kA : Nat} {cID : List Nat} {wT wM : Option (List Nat)} {cp : ConnectPacket}
    (h : connectParseUsername raw offset pName pLevel uF pF wR wQ wF cS kA cID
      wT wM = .ok cp) :
    cp.usernameFlag = uF ∧ cp.passwordFlag = pF ∧ cp.willFlag = wF ∧
    cp.willQoS = wQ ∧ cp.willTopic = wT ∧ cp.willMessage = wM := by
  unfold connectParseUsername at h
  simp only [] at h
  iterate 4 (all_goals try split at h)
  all_goals try exact CResult.noConfusion h
  all_goals exact connectParsePassword_ok_fields h

/-- Past the username/password dependency check, an accepted packet satisfies
`passwordFlag → usernameFlag`, with the will fields preserved. -/
theorem connectParseTail_ok_fields {raw : List Nat} {offset : Nat}
    {pName : List Nat} {pLevel : Nat} {uF pF wR : Bool} {wQ : Nat} {wF cS : Bool}
    {kA : Nat} {cID : List Nat} {wT wM : Option (List Nat)} {cp : ConnectPacket}
    (h : connectParseTail raw offset pName pLevel uF pF wR wQ wF cS kA cID
      wT wM = .ok cp) :
    (cp.passwordFlag = true → cp.usernameFlag = true) ∧ cp.willFlag = wF ∧
    cp.willQoS = wQ ∧ cp.willTopic = wT ∧ cp.willMessage = wM := by
  unfold connectParseTail at h
  split at h
  · exact CResult.noConfusion h
  · next hdep =>
    obtain ⟨h1, h2, h3, h4, h5, h6⟩ := connectParseUsername_ok_fields h
    refine ⟨?_, h3, h4, h5, h6⟩
    intro hp
    rw [h2] at hp
    rw [h1]
    by_contra hu
    rw [Bool.not_eq_true] at hu
    exact hdep (by simp [hu, hp])

/-- The will section leaves both will strings absent whenever the will flag
is clear. -/
theorem connectParseWill_ok_fields {raw : List Nat} {offset : Nat}
    {pName : List Nat} {pLevel : Nat} {uF pF wR : Bool} {wQ : Nat} {wF cS : Bool}
    {kA : Nat} {cID : List Nat} {cp : ConnectPacket}
    (h : connectParseWill raw offset pName pLevel uF pF wR wQ wF cS kA cID
      = .ok cp) :
    (cp.passwordFlag = true → cp.usernameFlag = true) ∧ cp.willFlag = wF ∧
    cp.willQoS = wQ ∧
    (wF = false → cp.willTopic = none ∧ cp.willMessage = none) := by
  unfold connectParseWill at h
  simp only [] at h
  split at h
  case isTrue hwf =>
    iterate 4 (all_goals try split at h)
    all_goals try exact CResult.noConfusion h
    obtain ⟨h1, h2, h3, h4, h5⟩ := connectParseTail_ok_fields h
    exact ⟨h1, h2, h3, fun hwf0 => absurd hwf (by simp [hwf0])⟩
  case isFalse hwf =>
    obtain ⟨h1, h2, h3, h4, h5⟩ := connectParseTail_ok_fields h
    exact ⟨h1, h2, h3, fun _ => ⟨h4, h5⟩⟩

/-- The client-id section preserves the flag and will facts. -/
theorem connectParseClientID_ok_fields {raw : List Nat} {offset : Nat}
    {pName : List Nat} {pLevel : Nat} {uF pF wR : Bool} {wQ : Nat} {wF cS : Bool}
    {kA : Nat} {cp : ConnectPacket}
    (h : connectParseClientID raw offset pName pLevel uF pF wR wQ wF cS kA
      = .ok cp) :
    (cp.passwordFlag = true → cp.usernameFlag = true) ∧ cp.willFlag = wF ∧
    cp.willQoS = wQ ∧
    (wF = false → cp.willTopic = none ∧ cp.willMessage = none) := by
  unfold connectParseClientID at h
  simp only [] at h
  iterate 4 (all_goals try split at h)
  all_goals try exact CResult.noConfusion h
  all_goals exact connectParseWill_ok_fields h

/-- Past the flag-byte section (which rejects `willFlag ∧ willQoS > 2`), an
accepted packet satisfies all three data-model facts. -/
theorem connectParseFlags_ok_invariants {raw : List Nat} {offset : Nat}
    {pName : List Nat} {pLevel : Nat} {cp : ConnectPacket}
    (h : connectParseFlags raw offset pName pLevel = .ok cp) :
    (cp.passwordFlag = true → cp.usernameFlag = true) ∧
    (cp.willFlag = false → cp.willTopic = none ∧ cp.willMessage = none) ∧
    (cp.willFlag = true → cp.willQoS ≤ 2) := by
  unfold connectParseFlags at h
  iterate 4 (all_goals try split at h)
  all_goals try exact CResult.noConfusion h
  next hquota _ =>
  obtain ⟨h1, h2, h3, h4⟩ := connectParseClientID_ok_fields h
  refine ⟨h1, fun hwf => h4 (by rw [←h2]; exact hwf), fun hwf => ?_⟩
  by_contra hgt
  refine hquota ?_
  rw [Bool.and_eq_true]
  refine ⟨by rw [←h2]; exact hwf, ?_⟩
  rw [decide_eq_true_eq]
  rw [←h3]
  omega

/-- C9 (amended).  Every CONNECT the parser accepts satisfies
`password_flag ⇒ username_flag`, and when the will flag is clear neither will
topic nor will message is present; the will-QoS range (`≤ 2`) is guaranteed
only when the will flag is set — a nonzero will-QoS with the will flag clear
is accepted and preserved (see the counterexample). -/
theorem connectParse_ok_invariants (raw : List Nat) (cp : ConnectPacket)
    (h : connectParse raw = .ok cp) :
    (cp.passwordFlag = true → cp.usernameFlag = true) ∧
    (cp.willFlag = false → cp.willTopic = none ∧ cp.willMessage = none) ∧
    (cp.willFlag = true → cp.willQoS ≤ 2) := by
  unfold connectParse at h
  iterate 6 (all_goals try split at h)
  all_goals try exact CResult.noConfusion h
  exact connectParseFlags_ok_invariants h

/-- C9 witness: a well-formed CONNECT is accepted and the invariants hold of
its parsed packet. -/
theorem connectParse_ok_invariants_witness :
    connectParse validConnectRaw = .ok validConnectPacket ∧
    ((validConnectPacket.passwordFlag = true →
        validConnectPacket.usernameFlag = true) ∧
    (validConnectPacket.willFlag = false →
        validConnectPacket.willTopic = none ∧
        validConnectPacket.willMessage = none) ∧
    (validConnectPacket.willFlag = true → validConnectPacket.willQoS ≤ 2)) :=
  ⟨rfl, connectParse_ok_invariants validConnectRaw validConnectPacket rfl⟩

/-- Every write of `sendRetainedMessages` is a PUBLISH. -/
theorem sendRetainedMessages_all_publish (R : List RetainedMsg) (f : Topic)
    (q : Nat) : ∀ ev ∈ sendRetainedMessages R f q, ev.isPublish = true := by
  induction R with
  | nil => intro ev hev; simp [sendRetainedMessages] at hev
  | cons m rest ih =>
    intro ev hev
    unfold sendRetainedMessages at hev
    rcases List.mem_append.mp hev with h1 | h2
    · split at h1
      · rw [List.mem_singleton] at h1
        subst h1
        rfl
      · simp at h1
    · exact ih ev h2

/-- Every write made during `Broker.HandleSubscribe`'s filter loop is a
PUBLISH (a retained-message delivery). -/
theorem handleSubscribeLoop_all_publish (clientID : String)
    (R : List RetainedMsg) (F : List (Topic × Nat)) (tr : TrieNode) :
    ∀ ev ∈ (handleSubscribeLoop clientID R F tr).1, ev.isPublish = true := by
  induction F generalizing tr with
  | nil => intro ev hev; simp [handleSubscribeLoop] at hev
  | cons f rest ih =>
    obtain ⟨ftopic, fqos⟩ := f
    intro ev hev
    rw [handleSubscribeLoop] at hev
    split at hev
    · -- invalid filter: only the loop's remaining writes
      split at hev
      rename_i evs codes tree' heq
      have hall := ih tr
      rw [heq] at hall
      exact hall ev hev
    · split at hev
      · -- subscribe error: only the loop's remaining writes
        split at hev
        rename_i evs codes tree' heq
        have hall := ih tr
        rw [heq] at hall
        exact hall ev hev
      · -- subscribe ok: retained writes ++ remaining writes
        rename_i tree1 hsub
        simp only [] at hev
        rcases List.mem_append.mp hev with h1 | h2
        · exact sendRetainedMessages_all_publish R ftopic (getGrantedQoS fqos) ev h1
        · exact ih tree1 ev h2

/-- C4 (amended).  For every SUBSCRIBE, the SUBACK is the *last* packet
written for the request — the write trace is the retained-message PUBLISHes,
in loop order, followed by the SUBACK; so when a retained message matches,
the SUBACK is not the first outbound packet (see the counterexample), because
`Broker.HandleSubscribe` writes retained deliveries itself and the SUBACK is
only written by the connection loop after it returns. -/
theorem suback_written_after_retained (clientID : String)
    (R : List RetainedMsg) (packetID : Nat) (F : List (Topic × Nat))
    (tr : TrieNode) :
    (tcpHandleSubscribe clientID R packetID F tr).getLast? =
      some (.suback packetID (handleSubscribeLoop clientID R F tr).2.1) ∧
    (∀ ev ∈ (tcpHandleSubscribe clientID R packetID F tr).dropLast,
      ev.isPublish = true) := by
  unfold tcpHandleSubscribe brokerHandleSubscribe
  rcases hrec : handleSubscribeLoop clientID R F tr with ⟨evs, codes, tree'⟩
  simp only []
  constructor
  · rw [List.getLast?_concat]
  · rw [List.dropLast_concat]
    intro ev hev
    have := handleSubscribeLoop_all_publish clientID R F tr
    rw [hrec] at this
    exact this ev hev

/-- A subscriber list filtered free of `c` answers `false` to "any entry of
`c`". -/
theorem filter_any_clientID_false (c : String) (subs : List SubEntry) :
    (subs.filter (fun s => s.clientID ≠ c)).any (fun s => s.clientID = c) =
      false := by
  induction subs with
  | nil => rfl
  | cons s rest ih => by_cases hs : s.clientID = c <;> simp [hs, ih]

mutual

/-- After `removeClientFromTree c`, no node of the tree holds an entry for
`c`. -/
theorem clientInTree_removeClientFromTree (c : String) (t : TrieNode) :
    clientInTree c (removeClientFromTree c t) = false := by
  match t with
  | .mk subs ch =>
    rw [removeClientFromTree, clientInTree]
    rw [filter_any_clientID_false, clientInTreeL_removeClientFromTreeL]
    rfl

/-- Children-map recursion of `clientInTree_removeClientFromTree`. -/
theorem clientInTreeL_removeClientFromTreeL (c : String)
    (l : List (Topic × TrieNode)) :
    clientInTreeL c (removeClientFromTreeL c l) = false := by
  match l with
  | [] => rfl
  | (k, child) :: rest =>
    rw [removeClientFromTreeL, clientInTreeL]
    rw [clientInTree_removeClientFromTree, clientInTreeL_removeClientFromTreeL]
    rfl

end

mutual

/-- `removeClientFromTree` never deletes a node: the tree shape (nodes and
children keys) is unchanged. -/
theorem eraseSubs_removeClientFromTree (c : String) (t : TrieNode) :
    eraseSubs (removeClientFromTree c t) = eraseSubs t := by
  match t with
  | .mk subs ch =>
    rw [removeClientFromTree, eraseSubs, eraseSubs]
    rw [eraseSubsL_removeClientFromTreeL]

/-- Children-map recursion of `eraseSubs_removeClientFromTree`. -/
theorem eraseSubsL_removeClientFromTreeL (c : String)
    (l : List (Topic × TrieNode)) :
    eraseSubsL (removeClientFromTreeL c l) = eraseSubsL l := by
  match l with
  | [] => rfl
  | (k, child) :: rest =>
    rw [removeClientFromTreeL, eraseSubsL, eraseSubsL]
    rw [eraseSubs_removeClientFromTree, eraseSubsL_removeClientFromTreeL]

end

/-- C5 (amended).  After `UnsubscribeAll(c)` the tree contains no subscriber
entry for `c` in any node; but empty nodes are *not* collapsed — the node
structure (every node and its children keys) is exactly as before, so a node
emptied by the removal stays in the tree (see the counterexample). -/
theorem unsubscribeAll_removes_client_keeps_shape (t : TrieNode) (c : String) :
    clientInTree c (unsubscribeAll c t) = false ∧
    eraseSubs (unsubscribeAll c t) = eraseSubs t :=
  ⟨clientInTree_removeClientFromTree c t, eraseSubs_removeClientFromTree c t⟩

/-- Bit 7 of a value below 128 is clear. -/
theorem tb7_false {b : Nat} (h : b < 128) : b.testBit 7 = false := by
  apply Nat.testBit_lt_two_pow
  norm_num
  omega

/-- Bit 7 of `x + 128` is set when `x < 128`. -/
theorem tb7_true {x : Nat} (h : x < 128) : (x + 128).testBit 7 = true := by
  simp [Nat.testBit, Nat.shiftRight_eq_div_pow]
  omega

/-- Final iteration of the encode loop: a value below 128 appends one byte
without a continuation bit and stops. -/
theorem encodeRL_last (v : Nat) (h : v < 128) (acc : List Nat) :
    encodeRLLoop v acc = acc ++ [v] := by
  rw [encodeRLLoop.eq_def]
  simp [Nat.div_eq_of_lt h, Nat.mod_eq_of_lt h]

/-- Non-final iteration of the encode loop: a value of 128 or more appends its
low 7 bits with the continuation bit and recurses on the quotient. -/
theorem encodeRL_step (v : Nat) (acc : List Nat) (h128 : 128 ≤ v)
    (hlen : acc.length + 1 < 4) :
    encodeRLLoop v acc = encodeRLLoop (v / 128) (acc ++ [v % 128 + 128]) := by
  rw [encodeRLLoop.eq_def]
  have h1 : ¬ (v / 128 = 0) := by omega
  have h2 : 0 < v / 128 := by omega
  simp [h1, h2]
  omega

/-- One-byte closed form of the encoder. -/
theorem encodeRL_closed1 (v : Nat) (h : v < 128) :
    encodeRLLoop v [] = [v] := by
  rw [encodeRL_last v h]
  rfl

/-- Two-byte closed form of the encoder. -/
theorem encodeRL_closed2 (v : Nat) (h1 : 128 ≤ v) (h2 : v < 16384) :
    encodeRLLoop v [] = [v % 128 + 128, v / 128] := by
  rw [encodeRL_step v [] h1 (by simp)]
  rw [encodeRL_last (v / 128) (by omega)]
  rfl

/-- Three-byte closed form of the encoder. -/
theorem encodeRL_closed3 (v : Nat) (h1 : 16384 ≤ v) (h2 : v < 2097152) :
    encodeRLLoop v [] = [v % 128 + 128, v / 128 % 128 + 128, v / 16384] := by
  rw [encodeRL_step v [] (by omega) (by simp)]
  rw [encodeRL_step (v / 128) _ (by omega) (by simp)]
  rw [encodeRL_last (v / 128 / 128) (by omega)]
  have : v / 128 / 128 = v / 16384 := by
    rw [Nat.div_div_eq_div_mul]
  rw [this]
  rfl

/-- Four-byte closed form of the encoder. -/
theorem encodeRL_closed4 (v : Nat) (h1 : 2097152 ≤ v) (h2 : v ≤ 268435455) :
    encodeRLLoop v [] =
      [v % 128 + 128, v / 128 % 128 + 128, v / 16384 % 128 + 128,
        v / 2097152] := by
  rw [encodeRL_step v [] (by omega) (by simp)]
  rw [encodeRL_step (v / 128) _ (by omega) (by simp)]
  have h3 : v / 128 / 128 = v / 16384 := by rw [Nat.div_div_eq_div_mul]
  rw [h3]
  rw [encodeRL_step (v / 16384) _ (by omega) (by simp)]
  have h4 : v / 16384 / 128 = v / 2097152 := by rw [Nat.div_div_eq_div_mul]
  rw [h4]
  rw [encodeRL_last (v / 2097152) (by omega)]
  rfl

/-- The decoder on one byte without continuation bit. -/
theorem parseRL_digits1 (d0 : Nat) (h0 : d0 < 128) :
    parseRemainingLength [d0] = .ok (d0, 1) := by
  unfold parseRemainingLength
  rw [parseRLLoop.eq_def]
  have hov : ¬ (268435455 < 0 + d0 % 128 * 1) := by omega
  simp [tb7_false h0, Nat.mod_eq_of_lt h0, hov]
  omega

/-- The decoder on a continuation byte followed by a final byte. -/
theorem parseRL_digits2 (d0 d1 : Nat) (h0 : d0 < 128) (h1 : d1 < 128) :
    parseRemainingLength [d0 + 128, d1] = .ok (d0 + d1 * 128, 2) := by
  unfold parseRemainingLength
  rw [parseRLLoop.eq_def]
  have hov : ¬ (268435455 < 0 + (d0 + 128) % 128 * 1) := by omega
  simp [tb7_true h0, hov]
  rw [parseRLLoop.eq_def]
  simp [tb7_false h1, Nat.mod_eq_of_lt h0, Nat.mod_eq_of_lt h1]
  rw [if_neg (by omega), if_neg (by omega)]

/-- The decoder on two continuation bytes followed by a final byte. -/
theorem parseRL_digits3 (d0 d1 d2 : Nat) (h0 : d0 < 128) (h1 : d1 < 128)
    (h2 : d2 < 128) :
    parseRemainingLength [d0 + 128, d1 + 128, d2] =
      .ok (d0 + d1 * 128 + d2 * 16384, 3) := by
  unfold parseRemainingLength
  rw [parseRLLoop.eq_def]
  have hov : ¬ (268435455 < 0 + (d0 + 128) % 128 * 1) := by omega
  simp [tb7_true h0, hov]
  rw [parseRLLoop.eq_def]
  have hov2 : ¬ (268435455 <
      (d0 + 128) % 128 * 1 + (d1 + 128) % 128 * (1 * 128)) := by
    omega
  simp [tb7_true h1, hov2]
  rw [parseRLLoop.eq_def]
  simp [tb7_false h2, Nat.mod_eq_of_lt h0, Nat.mod_eq_of_lt h1,
    Nat.mod_eq_of_lt h2]
  have hA : ¬ (268435455 < d0 + d1 * 128) := by omega
  have hB : ¬ (268435455 < d0 + d1 * 128 + d2 * 16384) := by omega
  have hC : ¬ (268435455 < d0) := by omega
  rw [if_neg hA, if_neg hB, if_neg hC]

/-- The decoder on three continuation bytes followed by a final byte. -/
theorem parseRL_digits4 (d0 d1 d2 d3 : Nat) (h0 : d0 < 128) (h1 : d1 < 128)
    (h2 : d2 < 128) (h3 : d3 < 128)
    (hm : d0 + d1 * 128 + d2 * 16384 + d3 * 2097152 ≤ 268435455) :
    parseRemainingLength [d0 + 128, d1 + 128, d2 + 128, d3] =
      .ok (d0 + d1 * 128 + d2 * 16384 + d3 * 2097152, 4) := by
  unfold parseRemainingLength
  rw [parseRLLoop.eq_def]
  have hov : ¬ (268435455 < 0 + (d0 + 128) % 128 * 1) := by omega
  simp [tb7_true h0, hov]
  rw [parseRLLoop.eq_def]
  have hov2 : ¬ (268435455 <
      (d0 + 128) % 128 * 1 + (d1 + 128) % 128 * (1 * 128)) := by
    omega
  simp [tb7_true h1, hov2]
  rw [parseRLLoop.eq_def]
  have hov3 : ¬ (268435455 <
      (d0 + 128) % 128 * 1 + (d1 + 128) % 128 * (1 * 128) +
        (d2 + 128) % 128 * (1 * 128 * 128)) := by
    omega
  simp [tb7_true h2, hov3]
  rw [parseRLLoop.eq_def]
  simp [List.get, tb7_false h3, Nat.mod_eq_of_lt h0, Nat.mod_eq_of_lt h1,
    Nat.mod_eq_of_lt h2, Nat.mod_eq_of_lt h3]
  have hA : ¬ (268435455 < d0 + d1 * 128 + d2 * 16384) := by omega
  have hB : ¬ (268435455 < d0 + d1 * 128 + d2 * 16384 + d3 * 2097152) := by
    omega
  have hC : ¬ (268435455 < d0) := by omega
  have hD : ¬ (268435455 < d0 + d1 * 128) := by omega
  rw [if_neg hA, if_neg hB, if_neg hC, if_neg hD]

/-- `EncodeRemainingLength` on a non-negative value is the encode loop. -/
theorem encodeRemainingLength_ofNat (v : Nat) :
    encodeRemainingLength (v : Int) = encodeRLLoop v [] := by
  unfold encodeRemainingLength
  rw [if_neg (by omega)]
  simp

/-- When the first four bytes all carry the continuation bit, the decode loop
ends in an error whatever the accumulated state. -/
theorem parseRL_reject_aux (data : List Nat) (hlen : 4 ≤ data.length)
    (hbit : ∀ i, i < 4 → (data.getD i 0).testBit 7 = true) :
    ∀ k offset len mult, offset + k = 4 →
      ∃ e, parseRLLoop data len mult offset = .error e := by
  intro k
  induction k with
  | zero =>
    intro offset len mult hsum
    have ho : offset = 4 := by omega
    subst ho
    rw [parseRLLoop.eq_def]
    by_cases hd : data.length ≤ 4
    · exact ⟨.shortBuffer, by rw [if_pos hd]⟩
    · refine ⟨.remainingLengthExceeded, ?_⟩
      rw [if_neg hd, if_pos (by omega : 4 ≤ 4)]
  | succ k ih =>
    intro offset len mult hsum
    rw [parseRLLoop.eq_def]
    rw [if_neg (by omega : ¬ data.length ≤ offset)]
    rw [if_neg (by omega : ¬ 4 ≤ offset)]
    simp only []
    by_cases hov : 268435455 < len + data.getD offset 0 % 128 * mult
    · exact ⟨.remainingLengthExceeded, by rw [if_pos hov]⟩
    · rw [if_neg hov, if_pos (hbit offset (by omega))]
      exact ih (offset + 1) _ _ (by omega)

/-- Round-trip and byte count of the Remaining-Length codec, by the four
closed forms. -/
theorem rl_roundtrip_core (v : Nat) (hv : v ≤ 268435455) :
    parseRemainingLength (encodeRLLoop v []) =
      .ok (v, (encodeRLLoop v []).length) ∧
    (encodeRLLoop v []).length =
      (if v ≤ 127 then 1 else if v ≤ 16383 then 2 else
        if v ≤ 2097151 then 3 else 4) := by
  by_cases h1 : v ≤ 127
  · rw [encodeRL_closed1 v (by omega)]
    rw [parseRL_digits1 v (by omega)]
    simp [h1]
  · by_cases h2 : v ≤ 16383
    · rw [encodeRL_closed2 v (by omega) (by omega)]
      rw [parseRL_digits2 (v % 128) (v / 128) (by omega) (by omega)]
      have hsum : v % 128 + v / 128 * 128 = v := by omega
      rw [hsum]
      simp [h1, h2]
    · by_cases h3 : v ≤ 2097151
      · rw [encodeRL_closed3 v (by omega) (by omega)]
        rw [parseRL_digits3 (v % 128) (v / 128 % 128) (v / 16384)
          (by omega) (by omega) (by omega)]
        have hsum : v % 128 + v / 128 % 128 * 128 + v / 16384 * 16384 = v := by
          omega
        rw [hsum]
        simp [h1, h2, h3]
      · rw [encodeRL_closed4 v (by omega) (by omega)]
        rw [parseRL_digits4 (v % 128) (v / 128 % 128) (v / 16384 % 128)
          (v / 2097152) (by omega) (by omega) (by omega) (by omega) (by omega)]
        have hsum : v % 128 + v / 128 % 128 * 128 + v / 16384 % 128 * 16384 +
            v / 2097152 * 2097152 = v := by omega
        rw [hsum]
        simp [h1, h2, h3]

/-- C6.  For every Remaining Length value `v ≤ 268435455`: decoding the
encoding of `v` yields `v` back (consuming exactly the encoded bytes); the
encoding uses 1, 2, 3 or 4 bytes according to the ranges `[0,127]`,
`[128,16383]`, `[16384,2097151]`, `[2097152,268435455]`; and the decoder
rejects (with an error) any input whose first four bytes all carry the
continuation bit, i.e. any input that would require a fifth byte. -/
theorem remaining_length_roundtrip (v : Nat) (hv : v ≤ 268435455)
    (data : List Nat) (hlen : 4 ≤ data.length)
    (hbit : ∀ i, i < 4 → (data.getD i 0).testBit 7 = true) :
    parseRemainingLength (encodeRemainingLength (v : Int)) =
      .ok (v, (encodeRemainingLength (v : Int)).length) ∧
    (encodeRemainingLength (v : Int)).length =
      (if v ≤ 127 then 1 else if v ≤ 16383 then 2 else
        if v ≤ 2097151 then 3 else 4) ∧
    ∃ e, parseRemainingLength data = .error e := by
  rw [encodeRemainingLength_ofNat]
  obtain ⟨hrt, hlen'⟩ := rl_roundtrip_core v hv
  refine ⟨hrt, hlen', ?_⟩
  unfold parseRemainingLength
  exact parseRL_reject_aux data hlen hbit 4 0 0 1 rfl

/-- C6 witness: `v = 200` (a two-byte encoding) and the all-continuation
input `[0x80, 0x80, 0x80, 0x80]`. -/
theorem remaining_length_roundtrip_witness :
    (200 : Nat) ≤ 268435455 ∧
    4 ≤ ([128, 128, 128, 128] : List Nat).length ∧
    (∀ i, i < 4 →
      ((([128, 128, 128, 128] : List Nat).getD i 0).testBit 7 = true)) ∧
    (parseRemainingLength (encodeRemainingLength ((200 : Nat) : Int)) =
      .ok (200, (encodeRemainingLength ((200 : Nat) : Int)).length) ∧
    (encodeRemainingLength ((200 : Nat) : Int)).length =
      (if (200 : Nat) ≤ 127 then 1 else if (200 : Nat) ≤ 16383 then 2 else
        if (200 : Nat) ≤ 2097151 then 3 else 4) ∧
    ∃ e, parseRemainingLength [128, 128, 128, 128] = .error e) :=
  ⟨by decide, by decide, by decide,
    remaining_length_roundtrip 200 (by decide) [128, 128, 128, 128]
      (by decide) (by decide)⟩

end Goqtt
